import Mathlib

/-!
Shallow embedding of the Usage Derivation, Anomaly Detection and Forecasting
core of `src/app.py` (hostel-water-backend), together with theorems settling
the frozen claims about it.

Modelling conventions:
* Python floats are modelled as exact rationals (`ℚ`); the claims under
  scrutiny are about the algebraic structure of the computations, not about
  IEEE-754 rounding.
* SQL dates are modelled as natural numbers (day granularity);
  `date + timedelta(days=i)` becomes `d + i`.
* The `readings` table is a list of `Row` in insertion order (append-only).
* `SELECT ... ORDER BY date DESC LIMIT 1` leaves the relative order of rows
  with equal dates unspecified in PostgreSQL; following the spec (§4.1,
  "ties resolved by insertion order") the model lets the latest-inserted row
  among those of maximal date win (`lastByDate`).
* Python's `sorted` is a stable sort; it is modelled by Mathlib's
  `List.insertionSort`, which is also stable, and a stable sort w.r.t. a total
  preorder is unique, so the two agree elementwise.
* The SQL integer `anomaly_flag` (1/0) is modelled as `Bool`.
-/

namespace HostelWater

open List

/-- A persisted row of the `readings` table (schema used by `add_reading`):
area name, date, the two raw cumulative meter values, the two derived usage
deltas, their total, and the anomaly flag. -/
structure Row where
  hostel_name : String
  date : Nat
  domestic_reading : Rat
  flush_reading : Rat
  domestic_usage : Rat
  flush_usage : Rat
  total_usage : Rat
  anomaly_flag : Bool
deriving DecidableEq, Repr

/-- The readings store, in insertion order (append-only log). -/
abbrev Store := List Row

/-- The fixed area catalog `AREAS` of `src/app.py` (lines 179-189). -/
def AREAS : List String :=
  ["HOSTEL 1", "HOSTEL 2", "HOSTEL 3", "HOSTEL 4",
   "HOSTEL 5", "HOSTEL 6", "HOSTEL 7", "HOSTEL 8",
   "HOSTEL 9", "HOSTEL 10",
   "CAFETERIA 1", "CAFETERIA 2",
   "ACADEMIC BLOCK",
   "NOB",
   "HOUSING FACILITY 1", "HOUSING FACILITY 2",
   "HOUSING FACILITY 3", "HOUSING FACILITY 4",
   "HOUSING FACILITY 5"]

/-- Model of `SELECT ... ORDER BY date DESC LIMIT 1` over a list of rows in
insertion order: the row of maximal date; among rows of equal maximal date the
latest-inserted one wins (PostgreSQL leaves that order unspecified, the spec
pins it to insertion order). -/
def lastByDate : List Row → Option Row
  | [] => none
  | r :: rs =>
    match lastByDate rs with
    | none => some r
    | some b => if r.date ≤ b.date then some b else some r

/-- The rows of the store belonging to one area
(`WHERE hostel_name = %s`, in insertion order). -/
def rowsFor (store : Store) (h : String) : List Row :=
  store.filter (fun r => r.hostel_name = h)

/-- The JSON body accepted by `POST /add_reading`. -/
structure ReadingInput where
  hostel_name : String
  date : Nat
  domestic_reading : Rat
  flush_reading : Rat
deriving DecidableEq, Repr

/-- The JSON body returned by `POST /add_reading`. -/
structure UsageResult where
  domestic_usage : Rat
  flush_usage : Rat
  total_usage : Rat
  anomaly_flag : Bool
deriving DecidableEq, Repr

/-- Embedding of `add_reading` (src/app.py lines 196-251): fetch the previous
cumulative readings for the area (0 when none), derive per-commodity usage as
new minus previous, total them, flag an anomaly when the total strictly
exceeds 500, insert the new row, and return the derived values. -/
def add_reading (store : Store) (inp : ReadingInput) : Store × UsageResult :=
  let prev := lastByDate (rowsFor store inp.hostel_name)
  let prev_domestic : Rat := match prev with | some r => r.domestic_reading | none => 0
  let prev_flush : Rat := match prev with | some r => r.flush_reading | none => 0
  let domestic_usage := inp.domestic_reading - prev_domestic
  let flush_usage := inp.flush_reading - prev_flush
  let total_usage := domestic_usage + flush_usage
  let anomaly := decide (500 < total_usage)
  (store ++ [⟨inp.hostel_name, inp.date, inp.domestic_reading, inp.flush_reading,
             domestic_usage, flush_usage, total_usage, anomaly⟩],
   ⟨domestic_usage, flush_usage, total_usage, anomaly⟩)

/-- Helper projecting the previous domestic cumulative value used by
`add_reading` (`prev[0] if prev else 0`). -/
def prevDomestic (store : Store) (h : String) : Rat :=
  match lastByDate (rowsFor store h) with
  | some r => r.domestic_reading
  | none => 0

/-- Helper projecting the previous flush cumulative value used by
`add_reading` (`prev[1] if prev else 0`). -/
def prevFlush (store : Store) (h : String) : Rat :=
  match lastByDate (rowsFor store h) with
  | some r => r.flush_reading
  | none => 0

/-- One element of the `areas` list built by the `dashboard` route. -/
structure AreaEntry where
  hostel_name : String
  domestic_usage : Rat
  flush_usage : Rat
  total_usage : Rat
  anomaly_flag : Bool
deriving DecidableEq, Repr

/-- The JSON body returned by `GET /dashboard`. -/
structure DashboardData where
  areas : List AreaEntry
  total_today : Rat
  total_domestic : Rat
  total_flush : Rat
  top_areas : List AreaEntry
deriving DecidableEq, Repr

/-- Model of `SELECT MAX(date) FROM readings`. -/
def latestDate (store : Store) : Option Nat :=
  (store.map (·.date)).max?

/-- Model of `SELECT ... FROM readings WHERE date = (SELECT MAX(date) FROM
readings)`: the rows dated at the maximum; the empty list when the store is
empty (the subquery is NULL and matches nothing). -/
def latestRows (store : Store) : List Row :=
  match latestDate store with
  | none => []
  | some d => store.filter (fun r => r.date = d)

/-- Model of the dict comprehension `{row[0]: row for row in rows}` followed
by `data_map[area]`: later rows overwrite earlier ones, so the lookup yields
the last row carrying the area's name. -/
def dataMapLookup (rows : List Row) (area : String) : Option Row :=
  (rows.filter (fun r => r.hostel_name = area)).getLast?

/-- The per-area entry the dashboard emits: the stored usage row of the
latest date when present, an all-zero non-anomalous entry otherwise. -/
def entryFor (rows : List Row) (area : String) : AreaEntry :=
  match dataMapLookup rows area with
  | some r => ⟨area, r.domestic_usage, r.flush_usage, r.total_usage, r.anomaly_flag⟩
  | none => ⟨area, 0, 0, 0, false⟩

/-- The comparison used by `sorted(areas_data, key=lambda x: x["total_usage"],
reverse=True)`: descending by total usage. -/
def geTotal (a b : AreaEntry) : Prop := b.total_usage ≤ a.total_usage

instance : DecidableRel geTotal :=
  fun a b => inferInstanceAs (Decidable (b.total_usage ≤ a.total_usage))

instance : IsTotal AreaEntry geTotal :=
  ⟨fun a b => le_total b.total_usage a.total_usage⟩

instance : IsTrans AreaEntry geTotal :=
  ⟨fun _ _ _ h1 h2 => le_trans h2 h1⟩

/-- Embedding of the `dashboard` route (src/app.py lines 253-317): one entry
per catalog area for the latest date (zero-filled when absent), grand totals,
and the top three entries by total usage under Python's stable descending
sort (modelled by the stable `insertionSort`; a stable sort w.r.t. a total
preorder is unique, so the two agree). -/
def dashboard (store : Store) : DashboardData :=
  let rows := latestRows store
  let areas_data := AREAS.map (entryFor rows)
  { areas := areas_data
    total_today := (areas_data.map (·.total_usage)).sum
    total_domestic := (areas_data.map (·.domestic_usage)).sum
    total_flush := (areas_data.map (·.flush_usage)).sum
    top_areas := (areas_data.insertionSort geTotal).take 3 }

/-- Position of a dashboard entry's area in the fixed catalog. -/
def catIdx (e : AreaEntry) : Nat := AREAS.indexOf e.hostel_name

/-- One element of the `data` list returned by `GET /trend`. -/
structure TrendPoint where
  date : Nat
  domestic : Rat
  flush : Rat
  is_forecast : Bool
deriving DecidableEq, Repr

/-- Sum of `domestic_usage` over the rows of one date
(the `historical[date]["domestic"] += domestic` accumulation). -/
def sumDomAt (rows : List Row) (d : Nat) : Rat :=
  ((rows.filter (fun r => r.date = d)).map (·.domestic_usage)).sum

/-- Sum of `flush_usage` over the rows of one date
(the `historical[date]["flush"] += flush` accumulation). -/
def sumFlushAt (rows : List Row) (d : Nat) : Rat :=
  ((rows.filter (fun r => r.date = d)).map (·.flush_usage)).sum

/-- The distinct dates of the rows, ascending
(`sorted(historical.keys())`). -/
def sortedDates (rows : List Row) : List Nat :=
  ((rows.map (·.date)).dedup).insertionSort (· ≤ ·)

/-- Sum of the first components of a list of points. -/
def Sx (pts : List (Rat × Rat)) : Rat := (pts.map Prod.fst).sum

/-- Sum of the second components of a list of points. -/
def Sy (pts : List (Rat × Rat)) : Rat := (pts.map Prod.snd).sum

/-- Sum of squared first components of a list of points. -/
def Sxx (pts : List (Rat × Rat)) : Rat := (pts.map (fun p => p.1 * p.1)).sum

/-- Sum of products of the components of a list of points. -/
def Sxy (pts : List (Rat × Rat)) : Rat := (pts.map (fun p => p.1 * p.2)).sum

/-- Residual sum of squares of the line `y = a*x + b` on a list of points:
the quantity `np.polyfit(x, y, 1)` minimises. -/
def RSS (a b : Rat) (pts : List (Rat × Rat)) : Rat :=
  (pts.map (fun p => (a * p.1 + b - p.2) ^ 2)).sum

/-- Embedding of `np.polyfit(x, y, 1)` over exact rationals: the unique
least-squares line through the points, computed from the normal equations.
When the normal system is singular (for x = 0, …, n−1 exactly when n ≤ 1)
`np.polyfit`'s column normalisation divides by a zero norm and the underlying
least-squares solve fails with `LinAlgError`; that branch is modelled as
`none`. -/
def polyfit1 (pts : List (Rat × Rat)) : Option (Rat × Rat) :=
  let n : Rat := pts.length
  let den := n * Sxx pts - Sx pts * Sx pts
  if den = 0 then none
  else some ((n * Sxy pts - Sx pts * Sy pts) / den,
             (Sy pts * Sxx pts - Sx pts * Sxy pts) / den)

/-- The positions `np.arange(k)` used as regression abscissae, as rationals. -/
def xsFor (k : Nat) : List Rat := List.map (fun i : Nat => (i : Rat)) (List.range k)

/-- Python's `round(q, 2)` modelled as rounding `q*100` to the nearest
integer; Python rounds half-to-even on binary floats, this model rounds
half-up — no claim under scrutiny evaluates at a half-cent tie. -/
def round2 (q : Rat) : Rat := (round (q * 100) : Int) / 100

/-- The rows of the store matching the requested areas
(`WHERE hostel_name = ANY(%s)`). -/
def trendRows (store : Store) (areas : List String) : List Row :=
  store.filter (fun r => areas.contains r.hostel_name)

/-- The regression window `sorted_dates[-7:] if len(sorted_dates) >= 7 else
sorted_dates`: the last `min(7, available)` dates. -/
def lastWindow (sd : List Nat) : List Nat :=
  if 7 ≤ sd.length then sd.drop (sd.length - 7) else sd

/-- The historical part of the trend payload: one point per date, carrying
the per-date aggregate usage and `is_forecast=false`. -/
def histPoints (rows : List Row) (sd : List Nat) : List TrendPoint :=
  sd.map (fun d => TrendPoint.mk d (sumDomAt rows d) (sumFlushAt rows d) false)

/-- The three appended forecast points: for offsets i = 1..3, the fitted
lines evaluated at position `k + i - 1`, clamped below at 0, rounded to 2
decimals, dated `latest + i` and flagged `is_forecast=true`. -/
def forecastPoints (latest k : Nat) (dc fc : Rat × Rat) : List TrendPoint :=
  (List.range 3).map (fun j =>
    TrendPoint.mk (latest + (j + 1))
      (round2 (max (dc.1 * ((k + j : Nat) : Rat) + dc.2) 0))
      (round2 (max (fc.1 * ((k + j : Nat) : Rat) + fc.2) 0))
      true)

/-- Embedding of the `trend` route (src/app.py lines 319-394): aggregate the
selected areas' usage per date, emit the historical series, then fit a
degree-1 polynomial to the last `min(7, n)` points per commodity and append
three clamped, rounded forecast points. Result is `Except` because the
`np.polyfit` call fails on a singular system (a single data point). -/
def get_trend (store : Store) (areas : List String) :
    Except String (List TrendPoint) :=
  if areas.isEmpty then .ok []
  else
    let rows := trendRows store areas
    if rows.isEmpty then .ok []
    else
      let sd := sortedDates rows
      let last_7 := lastWindow sd
      let k := last_7.length
      match polyfit1 ((xsFor k).zip (last_7.map (sumDomAt rows))),
            polyfit1 ((xsFor k).zip (last_7.map (sumFlushAt rows))) with
      | some dc, some fc =>
          .ok (histPoints rows sd ++ forecastPoints ((sd.getLast?).getD 0) k dc fc)
      | _, _ => .error "LinAlgError"

/-- The (position, value) points the trend route feeds to the domestic
degree-1 fit: the last-window positions paired with the per-date domestic
aggregates. -/
def domWindowPts (store : Store) (areas : List String) : List (Rat × Rat) :=
  (xsFor (lastWindow (sortedDates (trendRows store areas))).length).zip
    ((lastWindow (sortedDates (trendRows store areas))).map
      (sumDomAt (trendRows store areas)))

/-- The (position, value) points the trend route feeds to the flush degree-1
fit. -/
def flushWindowPts (store : Store) (areas : List String) : List (Rat × Rat) :=
  (xsFor (lastWindow (sortedDates (trendRows store areas))).length).zip
    ((lastWindow (sortedDates (trendRows store areas))).map
      (sumFlushAt (trendRows store areas)))

/-- Embedding of the `export` route (src/app.py lines 396-459) up to the
xlsx serialisation: rows in the requested date range (`BETWEEN` is
inclusive); a distinct "No data found" error when none match; otherwise one
wide row per date holding, for every catalog area in catalog order, the
(flush, domestic) usage sums of that date and area, 0 when absent. -/
def export_data (store : Store) (s e : Nat) :
    Except String (List (Nat × List (Rat × Rat))) :=
  let df := store.filter (fun r => s ≤ r.date && r.date ≤ e)
  if df.isEmpty then .error "No data found"
  else
    let dates := ((df.map (·.date)).dedup).insertionSort (· ≤ ·)
    .ok (dates.map (fun d => (d, AREAS.map (fun a =>
      (((df.filter (fun r => r.date = d && r.hostel_name = a)).map (·.flush_usage)).sum,
       ((df.filter (fun r => r.date = d && r.hostel_name = a)).map (·.domestic_usage)).sum)))))

/-- Modelled from the spec: the forecast-relative anomaly policy of §4.2 and
the seasonal forecaster's minimum-history guard of §4.3 are present only in
other revisions of this repository, not in `src/app.py` (which only carries
the fixed-threshold policy). Faithful to the spec's words: below 10 prior
records the forecast is undefined (`none`); the concrete model fit is left
as a parameter, since §4.3 fixes only its interface. -/
def seasonalForecast (fit : List Rat → Rat) (history : List Rat) : Option Rat :=
  if history.length < 10 then none else some (fit history)

/-- Modelled from the spec: `anomaly = total_usage > forecast(A) * MARGIN`
with margin 1.2 (§4.2); an undefined forecast (insufficient history) marks
the record not-anomalous instead of erroring. -/
def anomalyForecastRelative (fit : List Rat → Rat) (history : List Rat)
    (total_usage : Rat) : Bool :=
  match seasonalForecast fit history with
  | none => false
  | some f => decide (f * (12 / 10) < total_usage)

/-- Demo fixture: one stored row for HOSTEL 1 with cumulative readings 100/50. -/
def demoRow1 : Row := ⟨"HOSTEL 1", 1, 100, 50, 100, 50, 150, false⟩

/-- Demo fixture: a store holding just `demoRow1`. -/
def demoStore1 : Store := [demoRow1]

/-- Demo fixture: a later reading for HOSTEL 1 with smaller cumulative values,
so that both usage deltas come out negative. -/
def demoInput1 : ReadingInput := ⟨"HOSTEL 1", 2, 80, 40⟩

/-- Demo fixture: two stored rows for HOSTEL 1, dated 1 and 3. -/
def demoStore5 : Store :=
  [⟨"HOSTEL 1", 1, 10, 5, 10, 5, 15, false⟩,
   ⟨"HOSTEL 1", 3, 30, 20, 20, 15, 35, false⟩]

/-- Demo fixture: a reading for HOSTEL 1 dated 5, after both stored rows. -/
def demoInput5 : ReadingInput := ⟨"HOSTEL 1", 5, 50, 40⟩

/-- Demo fixture for the trend route: three readings for HOSTEL 1 on dates
1, 2, 3 whose domestic usage rises 10, 20, 30 and whose flush usage falls
30, 20, 10. -/
def demoTrendStore : Store :=
  [⟨"HOSTEL 1", 1, 10, 30, 10, 30, 40, false⟩,
   ⟨"HOSTEL 1", 2, 30, 50, 20, 20, 40, false⟩,
   ⟨"HOSTEL 1", 3, 60, 60, 30, 10, 40, false⟩]

/-- Demo fixture: a store with a single reading (a single date), on which
the degree-1 fit of the trend route is singular. -/
def demoOnePointStore : Store :=
  [⟨"HOSTEL 1", 1, 10, 30, 10, 30, 40, false⟩]

theorem add_reading_snd (store : Store) (inp : ReadingInput) :
    (add_reading store inp).2 =
      ⟨inp.domestic_reading - prevDomestic store inp.hostel_name,
       inp.flush_reading - prevFlush store inp.hostel_name,
       (inp.domestic_reading - prevDomestic store inp.hostel_name) +
         (inp.flush_reading - prevFlush store inp.hostel_name),
       decide (500 < (inp.domestic_reading - prevDomestic store inp.hostel_name) +
         (inp.flush_reading - prevFlush store inp.hostel_name))⟩ := by
  simp only [add_reading, prevDomestic, prevFlush]

theorem add_reading_fst (store : Store) (inp : ReadingInput) :
    (add_reading store inp).1 =
      store ++ [⟨inp.hostel_name, inp.date, inp.domestic_reading, inp.flush_reading,
        (add_reading store inp).2.domestic_usage,
        (add_reading store inp).2.flush_usage,
        (add_reading store inp).2.total_usage,
        (add_reading store inp).2.anomaly_flag⟩] := by
  simp only [add_reading]

/-- Decomposition of `lastByDate`: on a nonempty list it returns a row `p`
occurring in the list such that every earlier row has date `≤ p.date` and
every later row has date `< p.date` (the latest-inserted row of maximal
date). -/
theorem lastByDate_eq_none : ∀ {l : List Row}, lastByDate l = none → l = []
  | [], _ => rfl
  | r :: rs, h => by
    simp only [lastByDate] at h
    split at h
    · exact absurd h (by simp)
    · split at h <;> simp_all

theorem lastByDate_spec : ∀ (l : List Row), l ≠ [] →
    ∃ p l₁ l₂, lastByDate l = some p ∧ l = l₁ ++ p :: l₂ ∧
      (∀ r ∈ l₁, r.date ≤ p.date) ∧ (∀ r ∈ l₂, r.date < p.date)
  | [], h => absurd rfl h
  | r :: rs, _ => by
    rcases hrs : lastByDate rs with _ | b
    · have h0 : rs = [] := lastByDate_eq_none hrs
      subst h0
      exact ⟨r, [], [], by simp [lastByDate], by simp, by simp, by simp⟩
    · have hne : rs ≠ [] := by
        rintro rfl
        simp [lastByDate] at hrs
      obtain ⟨p, l₁, l₂, hp, hdec, hle, hlt⟩ := lastByDate_spec rs hne
      have hbp : b = p := by
        rw [hrs] at hp
        exact Option.some_inj.mp hp
      subst hbp
      by_cases hc : r.date ≤ b.date
      · refine ⟨b, r :: l₁, l₂, ?_, by simp [hdec], ?_, hlt⟩
        · simp only [lastByDate, hrs]
          simp [hc]
        · intro x hx
          rcases List.mem_cons.mp hx with hx | hx
          · exact hx ▸ hc
          · exact hle x hx
      · refine ⟨r, [], rs, ?_, by simp, by simp, ?_⟩
        · simp only [lastByDate, hrs]
          simp [hc]
        · intro x hx
          push_neg at hc
          rw [hdec] at hx
          rcases List.mem_append.mp hx with hx | hx
          · exact lt_of_le_of_lt (hle x hx) hc
          · rcases List.mem_cons.mp hx with hx | hx
            · exact hx ▸ hc
            · exact lt_trans (hlt x hx) hc

theorem lastByDate_mem {l : List Row} {p : Row} (h : lastByDate l = some p) :
    p ∈ l := by
  rcases l with _ | ⟨r, rs⟩
  · simp [lastByDate] at h
  · obtain ⟨q, l₁, l₂, hq, hdec, -, -⟩ := lastByDate_spec (r :: rs) (by simp)
    rw [hq] at h
    cases h
    rw [hdec]
    exact List.mem_append.mpr (Or.inr (List.mem_cons_self _ _))

theorem lastByDate_max {l : List Row} {p : Row} (h : lastByDate l = some p) :
    ∀ r ∈ l, r.date ≤ p.date := by
  rcases l with _ | ⟨r, rs⟩
  · simp [lastByDate] at h
  · obtain ⟨q, l₁, l₂, hq, hdec, hle, hlt⟩ := lastByDate_spec (r :: rs) (by simp)
    rw [hq] at h
    cases h
    intro x hx
    rw [hdec] at hx
    rcases List.mem_append.mp hx with hx | hx
    · exact hle x hx
    · rcases List.mem_cons.mp hx with hx | hx
      · exact hx ▸ le_refl _
      · exact le_of_lt (hlt x hx)

/-- C1: for every ingested reading, per-commodity usage equals the new
cumulative value minus the prior stored cumulative value for that area (0 when
no prior record exists, so the first reading's usage is the raw value),
computed independently for each commodity; the difference is passed through
unchanged, negative or not. -/
theorem C1_usage_delta (store : Store) (inp : ReadingInput) :
    (rowsFor store inp.hostel_name = [] →
      (add_reading store inp).2.domestic_usage = inp.domestic_reading ∧
      (add_reading store inp).2.flush_usage = inp.flush_reading) ∧
    (∀ p, lastByDate (rowsFor store inp.hostel_name) = some p →
      (add_reading store inp).2.domestic_usage
          = inp.domestic_reading - p.domestic_reading ∧
      (add_reading store inp).2.flush_usage
          = inp.flush_reading - p.flush_reading) := by
  constructor
  · intro h
    simp [add_reading_snd, prevDomestic, prevFlush, h, lastByDate]
  · intro p hp
    simp [add_reading_snd, prevDomestic, prevFlush, hp]

/-- Witness for C1: with a prior record (100, 50) a new reading (80, 40)
yields the negative deltas −20 and −10, passed through unchanged; from an
empty store the first reading's usage equals the raw values. -/
theorem C1_usage_delta_witness :
    (add_reading demoStore1 demoInput1).2.domestic_usage = 80 - 100 ∧
    (add_reading demoStore1 demoInput1).2.flush_usage = 40 - 50 ∧
    (add_reading ([] : Store) demoInput1).2.domestic_usage = 80 ∧
    (add_reading ([] : Store) demoInput1).2.flush_usage = 40 := by
  refine ⟨?_, ?_, ?_, ?_⟩
  · exact ((C1_usage_delta demoStore1 demoInput1).2 demoRow1
      (by simp [rowsFor, demoStore1, demoInput1, demoRow1, lastByDate])).1
  · exact ((C1_usage_delta demoStore1 demoInput1).2 demoRow1
      (by simp [rowsFor, demoStore1, demoInput1, demoRow1, lastByDate])).2
  · exact ((C1_usage_delta [] demoInput1).1 (by simp [rowsFor])).1
  · exact ((C1_usage_delta [] demoInput1).1 (by simp [rowsFor])).2

/-- C2: under the fixed-threshold policy the anomaly flag of the returned
result is true iff `total_usage > 500`; equality with the threshold is
non-anomalous; and every row the operation persists (beyond the pre-existing
store) satisfies the same characterisation. -/
theorem C2_threshold (store : Store) (inp : ReadingInput) :
    ((add_reading store inp).2.anomaly_flag = true ↔
      500 < (add_reading store inp).2.total_usage) ∧
    ((add_reading store inp).2.total_usage = 500 →
      (add_reading store inp).2.anomaly_flag = false) ∧
    (∀ row ∈ (add_reading store inp).1, row ∈ store ∨
      (row.anomaly_flag = true ↔ 500 < row.total_usage)) := by
  refine ⟨by simp [add_reading_snd], ?_, ?_⟩
  · intro h
    simp only [add_reading_snd] at h ⊢
    rw [h]
    simp
  · intro row hrow
    rw [add_reading_fst] at hrow
    rcases List.mem_append.mp hrow with h | h
    · exact Or.inl h
    · right
      have heq : row = _ := List.mem_singleton.mp h
      subst heq
      simp [add_reading_snd]

/-- Witness for C2: a first reading (300, 200) totals exactly 500 and is
flagged non-anomalous. -/
theorem C2_threshold_witness :
    (add_reading ([] : Store) ⟨"HOSTEL 1", 1, 300, 200⟩).2.anomaly_flag = false :=
  (C2_threshold [] ⟨"HOSTEL 1", 1, 300, 200⟩).2.1
    (by norm_num [add_reading_snd, prevDomestic, prevFlush, rowsFor, lastByDate])

/-- C9: every `UsageRecord` created by ingestion — both the returned result
and the single row appended to the store — satisfies
`total_usage = domestic_usage + flush_usage`. -/
theorem C9_total_invariant (store : Store) (inp : ReadingInput) :
    (add_reading store inp).2.total_usage =
      (add_reading store inp).2.domestic_usage +
        (add_reading store inp).2.flush_usage ∧
    ∃ r : Row, (add_reading store inp).1 = store ++ [r] ∧
      r.total_usage = r.domestic_usage + r.flush_usage ∧
      r.domestic_usage = (add_reading store inp).2.domestic_usage ∧
      r.flush_usage = (add_reading store inp).2.flush_usage ∧
      r.total_usage = (add_reading store inp).2.total_usage := by
  refine ⟨by simp [add_reading_snd], _, add_reading_fst store inp, ?_, rfl, rfl, rfl⟩
  simp [add_reading_snd]

/-- C5: the prior cumulative values used by ingestion are those of the row
returned by `ORDER BY date DESC LIMIT 1`: a stored row `p` for the area of
maximal date, the latest-inserted one among ties; when all stored dates for
the area are strictly before the new reading's date, `p` is the most recent
stored reading strictly before it. -/
theorem C5_prior_selection (store : Store) (inp : ReadingInput)
    (h : rowsFor store inp.hostel_name ≠ []) :
    ∃ p l₁ l₂, lastByDate (rowsFor store inp.hostel_name) = some p ∧
      rowsFor store inp.hostel_name = l₁ ++ p :: l₂ ∧
      (∀ r ∈ l₁, r.date ≤ p.date) ∧
      (∀ r ∈ l₂, r.date < p.date) ∧
      (∀ r ∈ rowsFor store inp.hostel_name, r.date ≤ p.date) ∧
      ((∀ r ∈ rowsFor store inp.hostel_name, r.date < inp.date) →
        p.date < inp.date) ∧
      (add_reading store inp).2.domestic_usage
          = inp.domestic_reading - p.domestic_reading ∧
      (add_reading store inp).2.flush_usage
          = inp.flush_reading - p.flush_reading := by
  obtain ⟨p, l₁, l₂, hp, hdec, hle, hlt⟩ := lastByDate_spec _ h
  refine ⟨p, l₁, l₂, hp, hdec, hle, hlt, lastByDate_max hp,
    fun hall => hall p (lastByDate_mem hp), ?_, ?_⟩
  · simp [add_reading_snd, prevDomestic, hp]
  · simp [add_reading_snd, prevFlush, hp]

/-- Witness for C5: on a store with rows dated 1 and 3 and a new reading
dated 5, the selected prior row exists with the stated properties. -/
theorem C5_prior_selection_witness :
    ∃ p l₁ l₂, lastByDate (rowsFor demoStore5 demoInput5.hostel_name) = some p ∧
      rowsFor demoStore5 demoInput5.hostel_name = l₁ ++ p :: l₂ ∧
      (∀ r ∈ l₁, r.date ≤ p.date) ∧
      (∀ r ∈ l₂, r.date < p.date) ∧
      (∀ r ∈ rowsFor demoStore5 demoInput5.hostel_name, r.date ≤ p.date) ∧
      ((∀ r ∈ rowsFor demoStore5 demoInput5.hostel_name, r.date < demoInput5.date) →
        p.date < demoInput5.date) ∧
      (add_reading demoStore5 demoInput5).2.domestic_usage
          = demoInput5.domestic_reading - p.domestic_reading ∧
      (add_reading demoStore5 demoInput5).2.flush_usage
          = demoInput5.flush_reading - p.flush_reading :=
  C5_prior_selection demoStore5 demoInput5 (by simp [rowsFor, demoStore5, demoInput5])

/-- C4: under the forecast-relative anomaly policy, an area with fewer than
10 prior records is never flagged, whatever the usage magnitude and whatever
model the forecaster would fit, and no error is raised (the policy is a total
function). -/
theorem C4_insufficient_history (fit : List Rat → Rat) (history : List Rat)
    (total_usage : Rat) (h : history.length < 10) :
    anomalyForecastRelative fit history total_usage = false := by
  simp [anomalyForecastRelative, seasonalForecast, h]

/-- Witness for C4: nine prior records and an enormous usage value still
yield a non-anomalous flag. -/
theorem C4_insufficient_history_witness :
    anomalyForecastRelative (fun _ => 0) [1, 2, 3, 4, 5, 6, 7, 8, 9] 1000000 = false :=
  C4_insufficient_history (fun _ => 0) [1, 2, 3, 4, 5, 6, 7, 8, 9] 1000000 (by simp)

/-- C10: the dashboard's `top_areas` list has exactly 3 entries for every
store state, the empty store included, because the per-area list it is drawn
from always has one entry per area of the fixed 19-area catalog. -/
theorem C10_top_areas_length (store : Store) :
    (dashboard store).top_areas.length = 3 ∧ (dashboard store).areas.length = 19 := by
  constructor
  · simp only [dashboard]
    rw [List.length_take, List.length_insertionSort, List.length_map]
    decide
  · simp only [dashboard]
    rw [List.length_map]
    decide

/-- C6: the dashboard of an empty store is the full catalog of all-zero,
non-anomalous entries (not an empty list); and in any store, a catalog area
with no row on the latest date is likewise emitted as an all-zero,
non-anomalous entry. -/
theorem C6_zero_filled_dashboard :
    (dashboard ([] : Store)).areas = AREAS.map (fun a => ⟨a, 0, 0, 0, false⟩) ∧
    (dashboard ([] : Store)).areas.length = 19 ∧
    (∀ e ∈ (dashboard ([] : Store)).areas,
      e.domestic_usage = 0 ∧ e.flush_usage = 0 ∧ e.total_usage = 0 ∧
        e.anomaly_flag = false) ∧
    (∀ (store : Store) (area : String), area ∈ AREAS →
      dataMapLookup (latestRows store) area = none →
      AreaEntry.mk area 0 0 0 false ∈ (dashboard store).areas) := by
  have hempty : ∀ a, entryFor (latestRows ([] : Store)) a = ⟨a, 0, 0, 0, false⟩ := by
    intro a
    simp [entryFor, dataMapLookup, latestRows, latestDate]
  refine ⟨?_, ?_, ?_, ?_⟩
  · simp only [dashboard]
    exact List.map_congr_left (fun a _ => hempty a)
  · simp [dashboard, AREAS]
  · intro e he
    simp only [dashboard, List.mem_map] at he
    obtain ⟨a, -, rfl⟩ := he
    simp [hempty a]
  · intro store area ha hnone
    simp only [dashboard, List.mem_map]
    exact ⟨area, ha, by simp [entryFor, hnone]⟩

/-- Witness for C6: in a store whose only reading is for HOSTEL 1, the
dashboard still carries the all-zero, non-anomalous entry for HOSTEL 2. -/
theorem C6_zero_filled_dashboard_witness :
    AreaEntry.mk "HOSTEL 2" 0 0 0 false ∈ (dashboard demoStore1).areas :=
  C6_zero_filled_dashboard.2.2.2 demoStore1 "HOSTEL 2" (by simp [AREAS])
    (by simp [dataMapLookup, latestRows, latestDate, demoStore1, demoRow1])

theorem entryFor_hostel_name (rows : List Row) (a : String) :
    (entryFor rows a).hostel_name = a := by
  rcases h : dataMapLookup rows a with _ | r <;> simp [entryFor, h]

theorem AREAS_nodup : AREAS.Nodup := by
  simp [AREAS]

theorem indexOf_lt_of_pair_sublist {α : Type} [DecidableEq α] :
    ∀ {s : List α} {a b : α}, [a, b] <+ s → s.Nodup →
      s.indexOf a < s.indexOf b := by
  intro s
  induction s with
  | nil =>
    intro a b h _
    rw [List.sublist_nil] at h
    cases h
  | cons c t ih =>
    intro a b h hnd
    rw [List.nodup_cons] at hnd
    cases h with
    | cons _ h' =>
      have ha : a ∈ t := h'.subset (by simp)
      have hb : b ∈ t := h'.subset (by simp)
      have hca : c ≠ a := fun e => hnd.1 (e ▸ ha)
      have hcb : c ≠ b := fun e => hnd.1 (e ▸ hb)
      rw [List.indexOf_cons_ne t hca, List.indexOf_cons_ne t hcb]
      exact Nat.succ_lt_succ (ih h' hnd.2)
    | cons₂ _ h' =>
      have hb : b ∈ t := h'.subset (by simp)
      have hcb : c ≠ b := fun e => hnd.1 (e ▸ hb)
      rw [List.indexOf_cons_self, List.indexOf_cons_ne t hcb]
      exact Nat.succ_pos _

/-- Stability of the descending sort, stated over an arbitrary duplicate-free
input list `ad` whose elements carry their input position through `pos`: the
sorted list is pairwise ordered by strictly larger total usage, input
position breaking ties. -/
theorem pairwise_sorted_generic (ad : List AreaEntry) (pos : AreaEntry → Nat)
    (hnodup_ad : ad.Nodup)
    (hpos : ∀ (i : Nat) (hi : i < ad.length), pos ad[i] = i) :
    (ad.insertionSort geTotal).Pairwise (fun x y =>
      y.total_usage < x.total_usage ∨
      (y.total_usage = x.total_usage ∧ pos x < pos y)) := by
  have hperm : ad.insertionSort geTotal ~ ad := List.perm_insertionSort geTotal ad
  have hnodup_s : (ad.insertionSort geTotal).Nodup := hperm.nodup_iff.mpr hnodup_ad
  have hsorted : (ad.insertionSort geTotal).Pairwise geTotal :=
    List.sorted_insertionSort geTotal ad
  rw [List.pairwise_iff_getElem]
  intro i j hi hj hij
  have hge : geTotal (ad.insertionSort geTotal)[i] (ad.insertionSort geTotal)[j] :=
    List.pairwise_iff_getElem.mp hsorted i j hi hj hij
  rcases lt_or_eq_of_le hge with hlt | heq
  · exact Or.inl hlt
  · refine Or.inr ⟨heq, ?_⟩
    obtain ⟨ia, hialt, hads⟩ :=
      List.getElem_of_mem (hperm.subset (List.getElem_mem hi))
    obtain ⟨ib, hiblt, hbds⟩ :=
      List.getElem_of_mem (hperm.subset (List.getElem_mem hj))
    have hpa : pos (ad.insertionSort geTotal)[i] = ia := by rw [← hads]; exact hpos ia hialt
    have hpb : pos (ad.insertionSort geTotal)[j] = ib := by rw [← hbds]; exact hpos ib hiblt
    have hne_xy : (ad.insertionSort geTotal)[i] ≠ (ad.insertionSort geTotal)[j] := by
      intro e
      exact absurd ((hnodup_s.getElem_inj_iff).mp e) (by omega)
    have hne_ab : ia ≠ ib := by
      intro e
      exact hne_xy (by rw [← hads, ← hbds]; congr 1)
    rw [hpa, hpb]
    rcases Nat.lt_or_ge ia ib with h1 | h2
    · exact h1
    · exfalso
      have h2' : ib < ia := lt_of_le_of_ne h2 (Ne.symm hne_ab)
      have hsub : [ad[ib], ad[ia]] <+ ad := by
        have hp : ([(⟨ib, hiblt⟩ : Fin ad.length), ⟨ia, hialt⟩] :
            List (Fin ad.length)).Pairwise (· < ·) :=
          List.pairwise_pair.mpr (Fin.mk_lt_mk.mpr h2')
        simpa using List.map_getElem_sublist hp
      rw [hads, hbds] at hsub
      have hyx : geTotal (ad.insertionSort geTotal)[j] (ad.insertionSort geTotal)[i] :=
        le_of_eq heq.symm
      have hst : [(ad.insertionSort geTotal)[j], (ad.insertionSort geTotal)[i]]
          <+ ad.insertionSort geTotal := List.pair_sublist_insertionSort hyx hsub
      have hidx := indexOf_lt_of_pair_sublist hst hnodup_s
      rw [List.indexOf_getElem hnodup_s j hj, List.indexOf_getElem hnodup_s i hi] at hidx
      omega

/-- The dashboard's per-area list is duplicate-free and each entry's catalog
position recovers its position in the list. -/
theorem areas_data_nodup (rows : List Row) :
    (AREAS.map (entryFor rows)).Nodup ∧
    ∀ (i : Nat) (hi : i < (AREAS.map (entryFor rows)).length),
      catIdx (AREAS.map (entryFor rows))[i] = i := by
  constructor
  · refine List.Nodup.map_on ?_ AREAS_nodup
    intro x _ y _ hxy
    have h := congrArg AreaEntry.hostel_name hxy
    rwa [entryFor_hostel_name, entryFor_hostel_name] at h
  · intro i hi
    have hi' : i < AREAS.length := by simpa using hi
    rw [List.getElem_map, catIdx, entryFor_hostel_name]
    exact List.indexOf_getElem AREAS_nodup i hi'

/-- C7: the dashboard's top ranking has length at most 3 and is pairwise
ordered by strictly greater total usage, areas of equal total appearing in
fixed-catalog order (the observable content of Python's stable descending
sort followed by `[:3]`). -/
theorem C7_top_ranking (store : Store) :
    (dashboard store).top_areas.length ≤ 3 ∧
    (dashboard store).top_areas.Pairwise (fun x y =>
      y.total_usage < x.total_usage ∨
      (y.total_usage = x.total_usage ∧ catIdx x < catIdx y)) := by
  constructor
  · simp only [dashboard]
    rw [List.length_take]
    omega
  · simp only [dashboard]
    exact List.Pairwise.sublist (List.take_sublist 3 _)
      (pairwise_sorted_generic (AREAS.map (entryFor (latestRows store))) catIdx
        (areas_data_nodup (latestRows store)).1 (areas_data_nodup (latestRows store)).2)

/-- C8: an export over a date range matching zero rows yields the distinct
"No data found" error outcome (not a zero-filled matrix), while the trend
operation with no matching history returns empty data, not an error. -/
theorem C8_empty_outcomes (store : Store) (s e : Nat) (areas : List String)
    (h1 : store.filter (fun r => s ≤ r.date && r.date ≤ e) = [])
    (h2 : trendRows store areas = []) :
    export_data store s e = Except.error "No data found" ∧
    get_trend store areas = Except.ok [] := by
  constructor
  · simp only [export_data, h1]
    simp
  · by_cases ha : areas.isEmpty <;> simp [get_trend, h2, ha]

/-- Witness for C8: a store holding one reading dated 1 matched against the
range 5..6 and against a different area. -/
theorem C8_empty_outcomes_witness :
    export_data demoStore1 5 6 = Except.error "No data found" ∧
    get_trend demoStore1 ["HOSTEL 9"] = Except.ok [] :=
  C8_empty_outcomes demoStore1 5 6 ["HOSTEL 9"]
    (by simp [demoStore1, demoRow1])
    (by simp [trendRows, demoStore1, demoRow1])

theorem RSS_expand (a b c d : Rat) (pts : List (Rat × Rat)) :
    RSS (a + c) (b + d) pts
      = RSS a b pts
        + 2 * c * (a * Sxx pts + b * Sx pts - Sxy pts)
        + 2 * d * (a * Sx pts + b * (pts.length : Rat) - Sy pts)
        + (c * c * Sxx pts + 2 * c * d * Sx pts + d * d * (pts.length : Rat)) := by
  induction pts with
  | nil =>
    simp only [RSS, Sx, Sy, Sxx, Sxy, List.map_nil, List.sum_nil, List.length_nil]
    push_cast
    ring
  | cons p l ih =>
    simp only [RSS, Sx, Sy, Sxx, Sxy, List.map_cons, List.sum_cons,
      List.length_cons] at ih ⊢
    push_cast at ih ⊢
    linear_combination ih

theorem sq_sum_eq (c d : Rat) (pts : List (Rat × Rat)) :
    (pts.map (fun p => (c * p.1 + d) ^ 2)).sum
      = c * c * Sxx pts + 2 * c * d * Sx pts + d * d * (pts.length : Rat) := by
  induction pts with
  | nil =>
    simp only [Sx, Sxx, List.map_nil, List.sum_nil, List.length_nil]
    push_cast
    ring
  | cons p l ih =>
    simp only [Sx, Sxx, List.map_cons, List.sum_cons, List.length_cons] at ih ⊢
    push_cast at ih ⊢
    linear_combination ih

theorem sq_sum_nonneg (c d : Rat) (pts : List (Rat × Rat)) :
    0 ≤ (pts.map (fun p => (c * p.1 + d) ^ 2)).sum := by
  apply List.sum_nonneg
  intro x hx
  obtain ⟨p, -, rfl⟩ := List.mem_map.mp hx
  positivity

/-- The coefficients `polyfit1` returns are a global minimiser of the
residual sum of squares: they are THE ordinary-least-squares fit. -/
theorem polyfit1_optimal {pts : List (Rat × Rat)} {a b : Rat}
    (h : polyfit1 pts = some (a, b)) (a' b' : Rat) :
    RSS a b pts ≤ RSS a' b' pts := by
  simp only [polyfit1] at h
  by_cases hden : (pts.length : Rat) * Sxx pts - Sx pts * Sx pts = 0
  · rw [if_pos hden] at h
    cases h
  · rw [if_neg hden] at h
    simp only [Option.some.injEq, Prod.mk.injEq] at h
    obtain ⟨ha, hb⟩ := h
    have hne1 : a * Sxx pts + b * Sx pts - Sxy pts = 0 := by
      rw [← ha, ← hb]
      field_simp
      ring
    have hne2 : a * Sx pts + b * (pts.length : Rat) - Sy pts = 0 := by
      rw [← ha, ← hb]
      field_simp
      ring
    have hexp := RSS_expand a b (a' - a) (b' - b) pts
    rw [hne1, hne2] at hexp
    have hfix : a + (a' - a) = a' := by ring
    have hfix2 : b + (b' - b) = b' := by ring
    rw [hfix, hfix2] at hexp
    have hQ := sq_sum_eq (a' - a) (b' - b) pts
    have hQ0 := sq_sum_nonneg (a' - a) (b' - b) pts
    linarith [hexp, hQ, hQ0]

theorem length_xsFor (k : Nat) : (xsFor k).length = k := by
  rw [xsFor, List.length_map, List.length_range]

theorem fst_zip_xsFor (k : Nat) (ys : List Rat) (h : ys.length = k) :
    ((xsFor k).zip ys).map Prod.fst = xsFor k :=
  List.map_fst_zip _ _ (by rw [length_xsFor, h])

theorem length_zip_xsFor (k : Nat) (ys : List Rat) (h : ys.length = k) :
    ((xsFor k).zip ys).length = k := by
  rw [List.length_zip, length_xsFor, h, Nat.min_self]

theorem Sx_zip (k : Nat) (ys : List Rat) (h : ys.length = k) :
    Sx ((xsFor k).zip ys) = (xsFor k).sum := by
  rw [Sx, fst_zip_xsFor k ys h]

theorem Sxx_zip (k : Nat) (ys : List Rat) (h : ys.length = k) :
    Sxx ((xsFor k).zip ys) = ((xsFor k).map (fun x => x * x)).sum := by
  have h2 : ((xsFor k).zip ys).map (fun p => p.1 * p.1)
      = (((xsFor k).zip ys).map Prod.fst).map (fun x => x * x) := by
    rw [List.map_map]
    rfl
  rw [Sxx, h2, fst_zip_xsFor k ys h]

theorem xsFor_succ (n : Nat) : xsFor (n + 1) = xsFor n ++ [(n : Rat)] := by
  simp [xsFor, List.range_succ]

theorem sum_xsFor (k : Nat) :
    (xsFor k).sum = (k : Rat) * ((k : Rat) - 1) / 2 := by
  induction k with
  | zero => simp [xsFor]
  | succ n ih =>
    rw [xsFor_succ, List.sum_append, ih, List.sum_singleton]
    push_cast
    ring

theorem sum_sq_xsFor (k : Nat) :
    ((xsFor k).map (fun x => x * x)).sum
      = (k : Rat) * ((k : Rat) - 1) * (2 * (k : Rat) - 1) / 6 := by
  induction k with
  | zero => simp [xsFor]
  | succ n ih =>
    rw [xsFor_succ, List.map_append, List.sum_append, ih, List.map_singleton,
      List.sum_singleton]
    push_cast
    ring

/-- With at least two window points the normal system is regular, so the fit
exists (this is exactly where a single point makes `np.polyfit` fail). -/
theorem polyfit1_window_some (k : Nat) (hk : 2 ≤ k) (ys : List Rat)
    (h : ys.length = k) :
    ∃ c : Rat × Rat, polyfit1 ((xsFor k).zip ys) = some c := by
  have hden : (((xsFor k).zip ys).length : Rat) * Sxx ((xsFor k).zip ys)
      - Sx ((xsFor k).zip ys) * Sx ((xsFor k).zip ys) ≠ 0 := by
    rw [length_zip_xsFor k ys h, Sx_zip k ys h, Sxx_zip k ys h, sum_xsFor,
      sum_sq_xsFor]
    have hk2 : (2 : Rat) ≤ (k : Rat) := by exact_mod_cast hk
    have heq : (k : Rat) * ((k : Rat) * ((k : Rat) - 1) * (2 * (k : Rat) - 1) / 6)
        - ((k : Rat) * ((k : Rat) - 1) / 2) * ((k : Rat) * ((k : Rat) - 1) / 2)
        = (k : Rat) * (k : Rat) * ((k : Rat) - 1) * ((k : Rat) + 1) / 12 := by
      ring
    rw [heq]
    have h0 : (0 : Rat) < (k : Rat) := by linarith
    have h1 : (0 : Rat) < (k : Rat) * (k : Rat) := mul_pos h0 h0
    have h2 : (0 : Rat) < (k : Rat) * (k : Rat) * ((k : Rat) - 1) :=
      mul_pos h1 (by linarith)
    have h3 : (0 : Rat) < (k : Rat) * (k : Rat) * ((k : Rat) - 1) * ((k : Rat) + 1) :=
      mul_pos h2 (by linarith)
    exact ne_of_gt (div_pos h3 (by norm_num))
  simp only [polyfit1]
  rw [if_neg hden]
  exact ⟨_, rfl⟩

theorem lastWindow_length (sd : List Nat) :
    (lastWindow sd).length = min 7 sd.length := by
  by_cases h : 7 ≤ sd.length <;> simp [lastWindow, h, List.length_drop] <;> omega

theorem demo_trendRows_eq :
    trendRows demoTrendStore ["HOSTEL 1"] = demoTrendStore := by
  simp [trendRows, demoTrendStore]

theorem demo_sortedDates_eq : sortedDates demoTrendStore = [1, 2, 3] := by
  norm_num [sortedDates, demoTrendStore, List.dedup, List.insertionSort,
    List.orderedInsert]

theorem demo_trend_eval :
    get_trend demoTrendStore ["HOSTEL 1"] = Except.ok
      [⟨1, 10, 30, false⟩, ⟨2, 20, 20, false⟩, ⟨3, 30, 10, false⟩,
       ⟨4, 40, 0, true⟩, ⟨5, 50, 0, true⟩, ⟨6, 60, 0, true⟩] := by
  have hlw : lastWindow [1, 2, 3] = [1, 2, 3] := by norm_num [lastWindow]
  have hdomvals : ([1, 2, 3] : List Nat).map (sumDomAt demoTrendStore)
      = [10, 20, 30] := by
    norm_num [sumDomAt, demoTrendStore]
  have hflvals : ([1, 2, 3] : List Nat).map (sumFlushAt demoTrendStore)
      = [30, 20, 10] := by
    norm_num [sumFlushAt, demoTrendStore]
  have hxs : xsFor 3 = [0, 1, 2] := by norm_num [xsFor, List.range_succ]
  have hfitd : polyfit1 [((0 : Rat), 10), (1, 20), (2, 30)] = some (10, 10) := by
    norm_num [polyfit1, Sx, Sy, Sxx, Sxy]
  have hfitf : polyfit1 [((0 : Rat), 30), (1, 20), (2, 10)] = some (-10, 30) := by
    norm_num [polyfit1, Sx, Sy, Sxx, Sxy]
  simp only [get_trend, demo_trendRows_eq, demo_sortedDates_eq, hlw]
  norm_num [demoTrendStore, hxs, List.zip_cons_cons, hdomvals, hflvals,
    hfitd, hfitf, histPoints, forecastPoints, sumDomAt, sumFlushAt, round2,
    List.range_succ]

/-- C3 (amended to series of at least two dates): with a nonempty area
selection, matching rows, and at least two aggregate dates, the trend
operation fits, per commodity, the unique least-squares line over the last
`min(7, n)` window points at positions 0..k−1, and returns the historical
series followed by the three forecast points: the fitted lines evaluated at
positions k−1+i (i = 1..3), clamped below at 0 and rounded to 2 decimals.
In particular, domestic history [10, 20, 30] forecasts [40.0, 50.0, 60.0] and
the declining flush history [30, 20, 10] is clamped to 0, not negative. -/
theorem C3_trend_linear_fit :
    (∀ (store : Store) (areas : List String),
      areas.isEmpty = false →
      (trendRows store areas).isEmpty = false →
      2 ≤ (sortedDates (trendRows store areas)).length →
      ∃ dc fc : Rat × Rat,
        polyfit1 (domWindowPts store areas) = some dc ∧
        polyfit1 (flushWindowPts store areas) = some fc ∧
        (∀ a' b' : Rat,
          RSS dc.1 dc.2 (domWindowPts store areas)
            ≤ RSS a' b' (domWindowPts store areas)) ∧
        (∀ a' b' : Rat,
          RSS fc.1 fc.2 (flushWindowPts store areas)
            ≤ RSS a' b' (flushWindowPts store areas)) ∧
        get_trend store areas = Except.ok
          (histPoints (trendRows store areas) (sortedDates (trendRows store areas)) ++
            forecastPoints (((sortedDates (trendRows store areas)).getLast?).getD 0)
              (lastWindow (sortedDates (trendRows store areas))).length dc fc)) ∧
    get_trend demoTrendStore ["HOSTEL 1"] = Except.ok
      [⟨1, 10, 30, false⟩, ⟨2, 20, 20, false⟩, ⟨3, 30, 10, false⟩,
       ⟨4, 40, 0, true⟩, ⟨5, 50, 0, true⟩, ⟨6, 60, 0, true⟩] := by
  constructor
  · intro store areas hareas hrows hsd
    have hk : 2 ≤ (lastWindow (sortedDates (trendRows store areas))).length := by
      rw [lastWindow_length]
      omega
    obtain ⟨dc, hdc⟩ := polyfit1_window_some
      (lastWindow (sortedDates (trendRows store areas))).length hk
      ((lastWindow (sortedDates (trendRows store areas))).map
        (sumDomAt (trendRows store areas)))
      (List.length_map _ _)
    obtain ⟨fc, hfc⟩ := polyfit1_window_some
      (lastWindow (sortedDates (trendRows store areas))).length hk
      ((lastWindow (sortedDates (trendRows store areas))).map
        (sumFlushAt (trendRows store areas)))
      (List.length_map _ _)
    refine ⟨dc, fc, hdc, hfc,
      fun a' b' => polyfit1_optimal hdc a' b',
      fun a' b' => polyfit1_optimal hfc a' b', ?_⟩
    rcases dc with ⟨da, db⟩
    rcases fc with ⟨fa, fb⟩
    simp only [get_trend, hareas, Bool.false_eq_true, if_false, hrows]
    rw [hdc, hfc]
  · exact demo_trend_eval

/-- Witness for C3: the hypotheses hold at the demo store with its three
dates, and the conclusion follows by applying the theorem there. -/
theorem C3_trend_linear_fit_witness :
    ∃ dc fc : Rat × Rat,
      polyfit1 (domWindowPts demoTrendStore ["HOSTEL 1"]) = some dc ∧
      polyfit1 (flushWindowPts demoTrendStore ["HOSTEL 1"]) = some fc ∧
      (∀ a' b' : Rat,
        RSS dc.1 dc.2 (domWindowPts demoTrendStore ["HOSTEL 1"])
          ≤ RSS a' b' (domWindowPts demoTrendStore ["HOSTEL 1"])) ∧
      (∀ a' b' : Rat,
        RSS fc.1 fc.2 (flushWindowPts demoTrendStore ["HOSTEL 1"])
          ≤ RSS a' b' (flushWindowPts demoTrendStore ["HOSTEL 1"])) ∧
      get_trend demoTrendStore ["HOSTEL 1"] = Except.ok
        (histPoints (trendRows demoTrendStore ["HOSTEL 1"])
            (sortedDates (trendRows demoTrendStore ["HOSTEL 1"])) ++
          forecastPoints
            (((sortedDates (trendRows demoTrendStore ["HOSTEL 1"])).getLast?).getD 0)
            (lastWindow (sortedDates (trendRows demoTrendStore ["HOSTEL 1"]))).length
            dc fc) :=
  C3_trend_linear_fit.1 demoTrendStore ["HOSTEL 1"] (by simp)
    (by rw [demo_trendRows_eq]; simp [demoTrendStore])
    (by rw [demo_trendRows_eq, demo_sortedDates_eq]; simp)

/-- Counterexample to C3 as stated: on a series with a single date the trend
operation does not output fitted values at all — the degree-1 system is
singular and the `np.polyfit` call fails — so the claim's "at least one
point" premise is too weak. -/
theorem C3_one_point_fails :
    get_trend demoOnePointStore ["HOSTEL 1"] = Except.error "LinAlgError" := by
  have hrows : trendRows demoOnePointStore ["HOSTEL 1"] = demoOnePointStore := by
    simp [trendRows, demoOnePointStore]
  have hsd : sortedDates demoOnePointStore = [1] := by
    norm_num [sortedDates, demoOnePointStore, List.dedup, List.insertionSort,
      List.orderedInsert]
  have hlw : lastWindow [1] = [1] := by norm_num [lastWindow]
  have hxs : xsFor 1 = [0] := by norm_num [xsFor, List.range_succ]
  have hfit : ∀ y : Rat, polyfit1 [((0 : Rat), y)] = none := by
    intro y
    norm_num [polyfit1, Sx, Sy, Sxx, Sxy]
  simp only [get_trend, hrows, hsd, hlw]
  norm_num [demoOnePointStore, hxs, List.zip_cons_cons, hfit, sumDomAt, sumFlushAt]

end HostelWater
